import Mathlib

/-!
Shallow embedding of the online path-finding agent (`src/main.py`) and proofs
about its operations.

The Python program models a Thanos agent on a `(MAP_LENGTH+1) x (MAP_LENGTH+1)`
grid of `Node`s.  Mutable Python objects are embedded as immutable Lean
structures with explicit state passing; Python exceptions become `Except PyErr`
results; Python `int` becomes `Int`; the arbiter's observation records become
explicit lists of `(x, y, tag)` triples supplied to `make_turn`.
-/

deriving instance DecidableEq for Except

namespace PathFind

/-- Python `MAP_LENGTH = 8` from `main.py`; the grid is `(MAP_LENGTH+1)` cells wide. -/
def MAP_LENGTH : Nat := 8

/-- The Python exceptions that the embedded code can raise:
`WrongMoveException`, `IndexError` (both the explicit raise in `get_node` and
the implicit one from list indexing), and `RecursionError` (recursion fuel). -/
inductive PyErr where
  | wrongMove
  | indexError
  | recursion
deriving DecidableEq, Repr

/-- Python `NodeType` enum from `main.py`. -/
inductive NodeType where
  | EMPTY
  | PERCEPTION
  | HULK
  | THOR
  | CAPTAIN
  | SHIELD
  | STONE
deriving DecidableEq, Repr

/-- Python `Node`: one grid cell.  The Python `__parent` reference is embedded as the
parent's coordinates (node identity in the source is coordinate equality, see
`Node.__eq__`/`Node.__hash__`).  The precomputed `__neighbors` list is a pure
function of the coordinates (see `nodeNeighbors`), so it is not stored. -/
structure Node where
  x : Int
  y : Int
  type : List NodeType
  g : Int
  h : Int
  f : Int
  parent : Option (Int × Int)
  visited : Bool
deriving DecidableEq, Repr

/-- Python `Node.__init__`. -/
def mkNode (x y : Int) : Node :=
  { x := x, y := y, type := [], g := 0, h := 0, f := 0, parent := none, visited := false }

/-- Python `Node.add_info`: unconditionally appends the tag to the node's type list. -/
def Node.add_info (nd : Node) (t : NodeType) : Node :=
  { nd with type := nd.type ++ [t] }

/-- Python `Node.is_character`: the type list meets `{HULK, THOR, CAPTAIN}`. -/
def Node.is_character (nd : Node) : Bool :=
  nd.type.any fun t =>
    t == NodeType.HULK || t == NodeType.THOR || t == NodeType.CAPTAIN

/-- Python `Node.is_perception`. -/
def Node.is_perception (nd : Node) : Bool :=
  nd.type.contains NodeType.PERCEPTION

/-- Python `Node.is_shield`. -/
def Node.is_shield (nd : Node) : Bool :=
  nd.type.contains NodeType.SHIELD

/-- Python `Node.heuristics`: Manhattan distance between two nodes. -/
def Node.heuristics (node1 node2 : Node) : Int :=
  |node1.x - node2.x| + |node1.y - node2.y|

/-- The neighbor list built for every node in `Map.__init__`, in the order the
source appends them: `(x+1,y)`, `(x-1,y)`, `(x,y+1)`, `(x,y-1)`, each kept only
when inside the grid. -/
def nodeNeighbors (x y : Int) : List (Int × Int) :=
  (if x + 1 ≤ (MAP_LENGTH : Int) then [(x + 1, y)] else []) ++
  (if 0 ≤ x - 1 then [(x - 1, y)] else []) ++
  (if y + 1 ≤ (MAP_LENGTH : Int) then [(x, y + 1)] else []) ++
  (if 0 ≤ y - 1 then [(x, y - 1)] else [])

/-- Python `Thanos`: the agent. -/
structure Thanos where
  perceptionType : Int
  x : Int
  y : Int
  hasShield : Bool
deriving DecidableEq, Repr

/-- Python `Thanos.__init__`: starts at `(0,0)` without a shield. -/
def mkThanos (perceptionType : Int) : Thanos :=
  { perceptionType := perceptionType, x := 0, y := 0, hasShield := false }

/-- Python `Thanos.give_shield`. -/
def Thanos.give_shield (t : Thanos) : Thanos :=
  { t with hasShield := true }

/-- Python `Thanos.move`: raises `WrongMoveException` when
`abs(abs(move_x) - abs(self.x)) + abs(abs(move_y) - abs(self.y)) > 1`,
otherwise sets the position to `(move_x, move_y)`. -/
def Thanos.move (t : Thanos) (move_x move_y : Int) : Except PyErr Thanos :=
  if |(|move_x| - |t.x|)| + |(|move_y| - |t.y|)| > 1 then
    .error .wrongMove
  else
    .ok { t with x := move_x, y := move_y }

/-- Python `Map`: the grid (row `x`, column `y`), the agent, the step counter and the
stone coordinates. -/
structure Map where
  map : List (List Node)
  thanos : Thanos
  steps : Nat
  stoneCoords : Int × Int
deriving DecidableEq, Repr

/-- Python `Map.get_node`: the source first performs the (off-by-one) explicit check
`0 <= x <= MAP_LENGTH + 1 and 0 <= y <= MAP_LENGTH + 1`, raising `IndexError`
when it fails, and then indexes `self.__map[x][y]`, which itself raises
`IndexError` when an index is past the end of the 9-element lists. -/
def Map.get_node (m : Map) (x y : Int) : Except PyErr Node :=
  if ¬(0 ≤ x ∧ x ≤ (MAP_LENGTH : Int) + 1) ∨ ¬(0 ≤ y ∧ y ≤ (MAP_LENGTH : Int) + 1) then
    .error .indexError
  else
    match m.map.get? x.toNat with
    | none => .error .indexError
    | some row =>
      match row.get? y.toNat with
      | none => .error .indexError
      | some nd => .ok nd

/-- Total cell read used where the source dereferences node objects it already
holds references to (parent pointers, relaxation updates): out-of-range
coordinates yield a dummy node, but all uses are in range. -/
def nodeAt (m : Map) (c : Int × Int) : Node :=
  (m.map.getD c.1.toNat []).getD c.2.toNat (mkNode 0 0)

/-- Update the node stored at in-range coordinates (the embedding of mutating
a `Node` object held inside `Map.__map`). -/
def setNodeAt (m : Map) (x y : Int) (f : Node → Node) : Map :=
  { m with
    map := m.map.set x.toNat
      ((m.map.getD x.toNat []).set y.toNat (f ((m.map.getD x.toNat []).getD y.toNat (mkNode 0 0)))) }

/-- Python `node.add_info` on the node at `(x, y)` of the map. -/
def Map.addInfoAt (m : Map) (x y : Int) (t : NodeType) : Map :=
  setNodeAt m x y (fun nd => nd.add_info t)

/-- Python `node.visit()` on the node at `(x, y)` of the map. -/
def Map.visitAt (m : Map) (x y : Int) : Map :=
  setNodeAt m x y (fun nd => { nd with visited := true })

/-- Row `x` of the freshly built grid: `[Node(x, y) for y in range(0, MAP_LENGTH + 1)]`. -/
def rowNodes (x : Nat) : List Node :=
  (List.range (MAP_LENGTH + 1)).map fun y : Nat => mkNode (x : Int) (y : Int)

/-- The freshly built grid of `Map.__init__` before the stone is placed. -/
def baseGrid : List (List Node) :=
  (List.range (MAP_LENGTH + 1)).map rowNodes

/-- Python `Map.__init__`: a `(MAP_LENGTH+1) x (MAP_LENGTH+1)` grid of fresh nodes
(row index is `x`), then `add_info(STONE)` on the stone cell. -/
def mkMap (perceptionType : Int) (stone : Nat × Nat) : Map :=
  Map.addInfoAt
    { map := baseGrid
      thanos := mkThanos perceptionType
      steps := 0
      stoneCoords := (stone.1, stone.2) }
    stone.1 stone.2 NodeType.STONE

/-- Python `Map.is_safe_move`: rejects the zero offset, offsets with
`|dx| + |dy| > 1`, out-of-grid landings, and landings on a character or
perception cell.  It never consults `thanos.has_shield`. -/
def Map.is_safe_move (m : Map) (delta_x delta_y : Int) : Bool :=
  if delta_x = 0 ∧ delta_y = 0 then false
  else if |delta_x| + |delta_y| > 1 then false
  else
    let new_x := m.thanos.x + delta_x
    let new_y := m.thanos.y + delta_y
    if ¬(0 ≤ new_x ∧ new_x ≤ (MAP_LENGTH : Int)) ∨ ¬(0 ≤ new_y ∧ new_y ≤ (MAP_LENGTH : Int)) then
      false
    else
      match m.get_node new_x new_y with
      | .ok new_node => !(new_node.is_character || new_node.is_perception)
      | .error _ => false

/-- The nine `(delta_x, delta_y)` pairs enumerated by the nested
`range(-1, 2)` loops of `Map.get_possible_moves`, in loop order. -/
def moveDeltas : List (Int × Int) :=
  [(-1, -1), (-1, 0), (-1, 1), (0, -1), (0, 0), (0, 1), (1, -1), (1, 0), (1, 1)]

/-- Python `Map.get_possible_moves`: the safe offsets among the nine candidates. -/
def Map.get_possible_moves (m : Map) : List (Int × Int) :=
  moveDeltas.filter fun d => m.is_safe_move d.1 d.2

/-- One observation record of a move response: `<x> <y> <tag>`. -/
abbrev Obs : Type := Int × Int × NodeType

/-- The body of the response loop in `Assignment.make_turn` for one record:
`EMPTY` is ignored, `SHIELD` gives Thanos the shield, and any other tag is
`add_info`-ed onto the node fetched by `get_node` (which can raise). -/
def applyObs (m : Map) (ob : Obs) : Except PyErr Map :=
  if ob.2.2 = NodeType.EMPTY then .ok m
  else if ob.2.2 = NodeType.SHIELD then .ok { m with thanos := m.thanos.give_shield }
  else
    match m.get_node ob.1 ob.2.1 with
    | .error e => .error e
    | .ok _ => .ok (m.addInfoAt ob.1 ob.2.1 ob.2.2)

/-- Python `Assignment.make_turn` with the arbiter's response supplied as `obs`:
fetch the turn node (may raise), move Thanos (may raise), mark the node
visited, then fold the observation records into the map. -/
def makeTurnCore (m : Map) (move_x move_y : Int) (obs : List Obs) : Except PyErr Map :=
  match m.get_node move_x move_y with
  | .error e => .error e
  | .ok _ =>
    match m.thanos.move move_x move_y with
    | .error e => .error e
    | .ok th =>
      let m1 := Map.visitAt { m with thanos := th } move_x move_y
      obs.foldlM applyObs m1

/-! ## The `heapq` priority queue

The open list of the A* search is a CPython `heapq` of node references
compared by `Node.__lt__`, i.e. by the `f` field at comparison time.  The
embedding stores coordinates and looks the live `f` value up in the map, and
replicates `Lib/heapq.py`'s `_siftdown`, `_siftup`, `heappush`, `heappop` and
`heapify` exactly (including their tie-breaking), using fuel bounds that the
strictly monotone position indices never exhaust. -/

/-- Read a heap slot (all accesses are in range). -/
def getC (heap : List (Int × Int)) (i : Nat) : Int × Int :=
  heap.getD i (0, 0)

/-- Python `heapq._siftdown(heap, startpos, pos)` with `newitem = heap[pos]` passed
explicitly; the fuel starts at `pos` and the position strictly decreases. -/
def siftdownGo (lt : (Int × Int) → (Int × Int) → Bool) (newitem : Int × Int)
    (startpos : Nat) : Nat → Nat → List (Int × Int) → List (Int × Int)
  | 0, pos, heap => heap.set pos newitem
  | fuel + 1, pos, heap =>
    if startpos < pos then
      let parentpos := (pos - 1) / 2
      let parent := getC heap parentpos
      if lt newitem parent then
        siftdownGo lt newitem startpos fuel parentpos (heap.set pos parent)
      else heap.set pos newitem
    else heap.set pos newitem

/-- Python `heapq._siftup(heap, pos)` with `newitem`, `endpos` and `startpos` held
explicitly; the position strictly increases below `endpos`, so fuel `endpos`
is enough. -/
def siftupGo (lt : (Int × Int) → (Int × Int) → Bool) (endpos : Nat)
    (newitem : Int × Int) (startpos : Nat) :
    Nat → Nat → List (Int × Int) → List (Int × Int)
  | 0, pos, heap => siftdownGo lt newitem startpos pos pos heap
  | fuel + 1, pos, heap =>
    let childpos := 2 * pos + 1
    if childpos < endpos then
      let rightpos := childpos + 1
      let cp :=
        if decide (rightpos < endpos) && !(lt (getC heap childpos) (getC heap rightpos)) then
          rightpos
        else childpos
      siftupGo lt endpos newitem startpos fuel cp (heap.set pos (getC heap cp))
    else siftdownGo lt newitem startpos pos pos heap

/-- Python `heapq._siftup(heap, pos)`. -/
def siftup (lt : (Int × Int) → (Int × Int) → Bool) (heap : List (Int × Int))
    (pos : Nat) : List (Int × Int) :=
  siftupGo lt heap.length (getC heap pos) pos heap.length pos heap

/-- Python `heapq.heappush`. -/
def heappush (lt : (Int × Int) → (Int × Int) → Bool) (heap : List (Int × Int))
    (item : Int × Int) : List (Int × Int) :=
  let h1 := heap ++ [item]
  siftdownGo lt item 0 (h1.length - 1) (h1.length - 1) h1

/-- Python `heapq.heappop`: `none` on the empty heap (Python raises `IndexError`). -/
def heappop (lt : (Int × Int) → (Int × Int) → Bool) (heap : List (Int × Int)) :
    Option ((Int × Int) × List (Int × Int)) :=
  match heap.getLast? with
  | none => none
  | some lastelt =>
    let rest := heap.dropLast
    if rest.isEmpty then some (lastelt, [])
    else some (getC rest 0, siftup lt (rest.set 0 lastelt) 0)

/-- Python `heapq.heapify`: `_siftup` at `n // 2 - 1, ..., 0`. -/
def heapify (lt : (Int × Int) → (Int × Int) → Bool) (heap : List (Int × Int)) :
    List (Int × Int) :=
  ((List.range (heap.length / 2)).reverse).foldl (fun h i => siftup lt h i) heap

/-- Python `Node.__lt__` as seen by the heap: compare the live `f` fields. -/
def fLt (m : Map) (c1 c2 : Int × Int) : Bool :=
  decide ((nodeAt m c1).f < (nodeAt m c2).f)

/-! ## Path reconstruction (`Map.get_path` and the return path of
`Assignment.astar_search`) -/

/-- The parent pointer of the node at `c`. -/
def parentOf (m : Map) (c : Int × Int) : Option (Int × Int) :=
  (nodeAt m c).parent

/-- Python `while current_node: append; current_node = current_node.parent`, the
ancestor chain starting from an optional node.  Parent chains in any state the
program reaches are strictly `g`-decreasing and hence shorter than the fuel
used at call sites. -/
def ancestors (m : Map) : Nat → Option (Int × Int) → List (Int × Int)
  | 0, _ => []
  | _, none => []
  | fuel + 1, some c => c :: ancestors m fuel (parentOf m c)

/-- Fuel bound for parent chains: far larger than the 81-cell grid. -/
def CHAIN_FUEL : Nat := 200

/-- Python `Map.get_path(start_node, end_node)`: the start node's ancestor chain,
then the end node's ancestor chain reversed with its first element (the
common root) dropped, then the end node itself. -/
def Map.get_path (m : Map) (startC endC : Int × Int) : List (Int × Int) :=
  let to_start := ancestors m CHAIN_FUEL (parentOf m startC)
  let from_start := (ancestors m CHAIN_FUEL (parentOf m endC)).reverse
  (to_start ++ from_start.drop 1) ++ [endC]

/-- The path-return loop of `astar_search`: the popped node followed by its
ancestor chain (the reversal in the source does not change the length). -/
def reconstructPath (m : Map) (c : Int × Int) : List (Int × Int) :=
  c :: ancestors m CHAIN_FUEL (parentOf m c)

/-! ## `Assignment.astar_search` -/

/-- The mutable state of one `astar_search` run: the map (with the agent),
the open heap, the closed set, the previously expanded node
(`current_node` just before the pop re-assigns it) and the number of
`make_turn` exchanges so far (used to index the observation oracle). -/
structure AStar where
  m : Map
  openL : List (Int × Int)
  closed : List (Int × Int)
  current : Int × Int
  turn : Nat
deriving DecidableEq, Repr

/-- An observation oracle: the records the arbiter answers to the `n`-th
`make_turn` of the run. -/
def Oracle : Type := Nat → List Obs

/-- Python `make_turn` inside a search run: the arbiter's records come from the
oracle at the current turn index. -/
def makeTurnA (oracle : Oracle) (a : AStar) (c : Int × Int) : Except PyErr AStar :=
  match makeTurnCore a.m c.1 c.2 (oracle a.turn) with
  | .error e => .error e
  | .ok m' => .ok { a with m := m', turn := a.turn + 1 }

/-- Python `Assignment.move_on_path`: one `make_turn` per path node. -/
def moveOnPath (oracle : Oracle) (a : AStar) (path : List (Int × Int)) :
    Except PyErr AStar :=
  path.foldlM (makeTurnA oracle) a

/-- Python `closed_set.add`. -/
def insertClosed (closed : List (Int × Int)) (c : Int × Int) : List (Int × Int) :=
  if c ∈ closed then closed else c :: closed

/-- The relaxation of one neighbor in `astar_search`: skip closed nodes,
improve nodes already in the open list in place (re-heapifying), push new
nodes. -/
def relaxNeighbor (endC cur : Int × Int) (a : AStar) (nb : Int × Int) : AStar :=
  if nb ∈ a.closed then a
  else
    let new_g := (nodeAt a.m cur).g + 1
    if nb ∈ a.openL then
      if new_g < (nodeAt a.m nb).g then
        let m' := setNodeAt a.m nb.1 nb.2 fun nd =>
          { nd with g := new_g,
                    h := Node.heuristics (mkNode endC.1 endC.2) (mkNode nb.1 nb.2),
                    f := new_g + Node.heuristics (mkNode endC.1 endC.2) (mkNode nb.1 nb.2),
                    parent := some cur }
        { a with m := m', openL := heapify (fLt m') a.openL }
      else a
    else
      let m' := setNodeAt a.m nb.1 nb.2 fun nd =>
        { nd with g := new_g,
                  h := Node.heuristics (mkNode endC.1 endC.2) (mkNode nb.1 nb.2),
                  f := new_g + Node.heuristics (mkNode endC.1 endC.2) (mkNode nb.1 nb.2),
                  parent := some cur }
      { a with m := m', openL := heappush (fLt m') a.openL nb }

/-- The neighbor-generation loop of `astar_search`: the cells one safe offset
away from Thanos' current position. -/
def neighborCells (m : Map) : List (Int × Int) :=
  m.get_possible_moves.map fun d => (m.thanos.x + d.1, m.thanos.y + d.2)

/-- The neighbor loop of `astar_search` folded over the generated cells. -/
def expandNeighbors (endC cur : Int × Int) (a : AStar) : AStar :=
  (neighborCells a.m).foldl (relaxNeighbor endC cur) a

/-- The walking phase of one `astar_search` iteration: if the popped cell is
not a grid neighbor of the previously expanded cell, walk the spliced
parent-chain path from Thanos' position to it; otherwise `make_turn` onto it
directly. -/
def astarWalk (oracle : Oracle) (prev cur : Int × Int) (a : AStar) :
    Except PyErr AStar :=
  if cur ∉ nodeNeighbors prev.1 prev.2 then
    let path := a.m.get_path (a.m.thanos.x, a.m.thanos.y) cur
    if path.isEmpty then .ok a else moveOnPath oracle a path
  else
    makeTurnA oracle a cur

/-- One iteration of the `while open_list:` loop of `astar_search`, after the
emptiness test: pop the lowest-`f` cell, physically reach it, and either
return the reconstructed path length (edge count) when it is the target, or
expand its neighbors.  The popped cell is reported alongside the outcome. -/
def astarBody (endC : Int × Int) (oracle : Oracle) (a : AStar) :
    Except PyErr ((Int × Int) × Sum (Int × AStar) AStar) :=
  match heappop (fLt a.m) a.openL with
  | none => .error .indexError
  | some (cur, open1) =>
    let prev := a.current
    let a1 := { a with openL := open1, current := cur }
    match astarWalk oracle prev cur a1 with
    | .error e => .error e
    | .ok a2 =>
      if cur = endC then
        .ok (cur, .inl (((reconstructPath a2.m cur).length : Int) - 1, a2))
      else
        let a3 := { a2 with closed := insertClosed a2.closed cur }
        .ok (cur, .inr (expandNeighbors endC cur a3))

/-- The `while open_list:` loop of `astar_search`, instrumented with the list
of popped cells.  `ok none` means the fuel ran out; `ok (some (r, trace, af))`
means the source loop returned `r` with pop trace `trace` and final state
`af`. -/
def astarLoopT (endC : Int × Int) (oracle : Oracle) :
    Nat → AStar → Except PyErr (Option (Int × List (Int × Int) × AStar))
  | 0, _ => .ok none
  | fuel + 1, a =>
    if a.openL = [] then .ok (some (-1, [], a))
    else
      match astarBody endC oracle a with
      | .error e => .error e
      | .ok (p, .inl (r, af)) => .ok (some (r, [p], af))
      | .ok (p, .inr a') =>
        match astarLoopT endC oracle fuel a' with
        | .error e => .error e
        | .ok none => .ok none
        | .ok (some (r, tr, af)) => .ok (some (r, p :: tr, af))

/-- The initial `astar_search` state: `current_node = start_node`, the start
node pushed onto the empty open list, the closed set empty. -/
def astarInit (m : Map) : AStar :=
  { m := m, openL := heappush (fLt m) [] (0, 0), closed := [], current := (0, 0), turn := 0 }

/-- Python `sys.maxsize * 2 + 1` on a 64-bit build: the initial `__min_distance`. -/
def MIN_DISTANCE_INIT : Nat := 2 ^ 64 - 1

/-- The state threaded through `run_dfs`: the map (with the agent), the
running `__min_distance`, and the turn counter indexing the oracle.  The
`visited` set is passed separately because the source restores it exactly
around every recursive call. -/
structure DState where
  m : Map
  minD : Nat
  turn : Nat
deriving DecidableEq, Repr

/-- Python `make_turn` inside a DFS run. -/
def makeTurnD (oracle : Oracle) (s : DState) (c : Int × Int) : Except PyErr DState :=
  match makeTurnCore s.m c.1 c.2 (oracle s.turn) with
  | .error e => .error e
  | .ok m' => .ok { s with m := m', turn := s.turn + 1 }

/-- Write `neighbor.g = current_distance` into the map. -/
def setG (s : DState) (nb : Int × Int) (dist : Nat) : DState :=
  { s with m := setNodeAt s.m nb.1 nb.2 fun nd => { nd with g := (dist : Int) } }

/-- The neighbor loop of `run_dfs`: recurse into each neighbor whose `g` memo
is `0` or worse than the current distance, first writing the memo.  `f` is the
recursive call at one smaller fuel; the recorded target distances of all
children are concatenated in order. -/
def dfsChildren (f : DState → (Int × Int) → Except PyErr (DState × List Nat))
    (dist : Nat) : DState → List (Int × Int) → Except PyErr (DState × List Nat)
  | s, [] => .ok (s, [])
  | s, nb :: rest =>
    if (nodeAt s.m nb).g = 0 ∨ (nodeAt s.m nb).g > (dist : Int) then
      match f (setG s nb dist) nb with
      | .error e => .error e
      | .ok (s', recs) =>
        match dfsChildren f dist s' rest with
        | .error e => .error e
        | .ok (s'', recs') => .ok (s'', recs ++ recs')
    else dfsChildren f dist s rest

/-- Python `Assignment.run_dfs`, instrumented with the list of `current_distance`
values recorded at the target (in depth-first order).  Fuel exhaustion is
Python's `RecursionError`. -/
def runDfs (endC : Int × Int) (oracle : Oracle) :
    Nat → DState → (Int × Int) → Nat → List (Int × Int) →
    Except PyErr (DState × List Nat)
  | 0, _, _, _, _ => .error .recursion
  | fuel + 1, s, cur, dist, visited =>
    if cur = endC then .ok ({ s with minD := min s.minD dist }, [dist])
    else if s.minD ≤ dist ∨ cur ∈ visited then .ok (s, [])
    else
      let visited' := cur :: visited
      let tpos := (s.m.thanos.x, s.m.thanos.y)
      match makeTurnD oracle s cur with
      | .error e => .error e
      | .ok s1 =>
        let nbs := neighborCells s1.m
        match dfsChildren
            (fun s' nb => runDfs endC oracle fuel s' nb (dist + 1) visited')
            dist s1 nbs with
        | .error e => .error e
        | .ok (s2, recs) =>
          match makeTurnD oracle s2 tpos with
          | .error e => .error e
          | .ok s3 => .ok (s3, recs)

/-- Python `Assignment.backtracking_search`, instrumented with the recorded target
distances: run the DFS from the start node and turn an untouched
`__min_distance` into `-1`. -/
def backtrackingSearch (endC : Int × Int) (oracle : Oracle) (fuel : Nat)
    (m : Map) : Except PyErr (Int × List Nat) :=
  match runDfs endC oracle fuel { m := m, minD := MIN_DISTANCE_INIT, turn := 0 } (0, 0) 0 [] with
  | .error e => .error e
  | .ok (s', recs) =>
    .ok (if s'.minD = MIN_DISTANCE_INIT then -1 else (s'.minD : Int), recs)

/-- The arbiter of the obstacle-free scenario: every move response carries
zero observation records. -/
def emptyOracle : Oracle := fun _ => []

/-- Overwrite the agent's shield flag (used to state that the move filter
ignores it). -/
def setShield (m : Map) (b : Bool) : Map :=
  { m with thanos := { m.thanos with hasShield := b } }

/-- A state in which the agent holds the shield and the adjacent cell `(0,1)`
carries the perception tag and no character tag. -/
def shieldedPerceptionMap : Map :=
  { Map.addInfoAt (mkMap 1 (8, 8)) 0 1 NodeType.PERCEPTION with
      thanos := (mkMap 1 (8, 8)).thanos.give_shield }

/-- The node the move filter inspects in `shieldedPerceptionMap`. -/
def shieldedPerceptionNode : Node :=
  (shieldedPerceptionMap.get_node 0 1).toOption.getD (mkNode 0 0)

/-- The state after the `make_turn` of the C3 counterexample. -/
def shieldTurnMap : Map :=
  (makeTurnCore (mkMap 1 (8, 8)) 0 1 [(2, 2, NodeType.SHIELD)]).toOption.getD (mkMap 1 (8, 8))

/-- A whole run of the turn executor: fold a list of `(move, observations)`
exchanges through `make_turn` starting from a freshly built map. -/
def runTurns (m : Map) (cmds : List ((Int × Int) × List Obs)) : Except PyErr Map :=
  cmds.foldlM (fun mm c => makeTurnCore mm c.1.1 c.1.2 c.2) m

/-- No cell of the grid carries the `SHIELD` tag. -/
def noShield (m : Map) : Prop :=
  ∀ row ∈ m.map, ∀ nd ∈ row, nd.is_shield = false

/-- The state after a run whose single turn reveals both a perception cell
and a shield cell. -/
def turnsNoShieldMap : Map :=
  (runTurns (mkMap 1 (8, 8))
      [((0, 1), [(1, 1, NodeType.PERCEPTION), (2, 2, NodeType.SHIELD)])]).toOption.getD
    (mkMap 1 (8, 8))

/-- A small complete A* run: the target is the start cell `(0,0)`. -/
def astarMini : Except PyErr (Option (Int × List (Int × Int) × AStar)) :=
  astarLoopT (0, 0) emptyOracle 10 (astarInit (mkMap 1 (0, 0)))

/-- The returned value of the small run. -/
def exMiniR : Int :=
  match astarMini with
  | .ok (some (r, _, _)) => r
  | _ => 0

/-- The pop trace of the small run. -/
def exMiniTr : List (Int × Int) :=
  match astarMini with
  | .ok (some (_, tr, _)) => tr
  | _ => []

/-- The final state of the small run. -/
def exMiniAf : AStar :=
  match astarMini with
  | .ok (some (_, _, af)) => af
  | _ => astarInit (mkMap 1 (0, 0))

/-- A small complete backtracking run: the target is the start cell. -/
def dfsMini : Except PyErr (Int × List Nat) :=
  backtrackingSearch (0, 0) emptyOracle 5 (mkMap 1 (0, 0))

/-- The returned value of the small backtracking run. -/
def exDfsR : Int :=
  match dfsMini with
  | .ok (r, _) => r
  | _ => 0

/-- The recorded target distances of the small backtracking run. -/
def exDfsRecs : List Nat :=
  match dfsMini with
  | .ok (_, recs) => recs
  | _ => []

/-! Theorems about the embedded program, one per claim of the specification,
with counterexamples and witnesses where needed. -/

/-- Claim C1, counterexample.  The claim says `Thanos.move` succeeds exactly
on destinations at Chebyshev distance at most 1 that differ from the current
position.  From `(0,0)`, the destination `(1,1)` has Chebyshev distance 1 and
differs, yet the move raises `WrongMoveException`; and the destination
`(0,0)` equals the current position, yet the move succeeds. -/
theorem thanos_move_chebyshev_counterexample :
    (mkThanos 1).move 1 1 = .error .wrongMove ∧
    max |(1 : Int) - (mkThanos 1).x| |(1 : Int) - (mkThanos 1).y| = 1 ∧
    ¬((1 : Int) = (mkThanos 1).x ∧ (1 : Int) = (mkThanos 1).y) ∧
    (mkThanos 1).move 0 0 = .ok (mkThanos 1) ∧
    (0 : Int) = (mkThanos 1).x ∧ (0 : Int) = (mkThanos 1).y := by
  decide

/-- Claim C1, amended.  For nonnegative coordinates (which every position and
every in-grid destination has), `Thanos.move` succeeds, setting the position
to the destination, exactly when the Manhattan distance (not the Chebyshev
distance) between the current position and the destination is at most 1 —
the zero move included; otherwise it raises `WrongMoveException` (and, the
result being an error, the position is unchanged). -/
theorem thanos_move_manhattan (t : Thanos) (mx my : Int)
    (hx : 0 ≤ t.x) (hy : 0 ≤ t.y) (hmx : 0 ≤ mx) (hmy : 0 ≤ my) :
    (t.move mx my = .ok { t with x := mx, y := my } ↔ |mx - t.x| + |my - t.y| ≤ 1) ∧
    (t.move mx my = .error .wrongMove ↔ 1 < |mx - t.x| + |my - t.y|) := by
  have habs : |(|mx| - |t.x|)| + |(|my| - |t.y|)| = |mx - t.x| + |my - t.y| := by
    rw [abs_of_nonneg hmx, abs_of_nonneg hx, abs_of_nonneg hmy, abs_of_nonneg hy]
  unfold Thanos.move
  rw [habs]
  by_cases h : 1 < |mx - t.x| + |my - t.y|
  · rw [if_pos h]
    refine ⟨⟨fun hc => absurd hc (by simp), fun hc => absurd h (not_lt.mpr hc)⟩,
      ⟨fun _ => h, fun _ => rfl⟩⟩
  · rw [if_neg h]
    refine ⟨⟨fun _ => not_lt.mp h, fun _ => rfl⟩,
      ⟨fun hc => absurd hc (by simp), fun hc => absurd hc h⟩⟩

/-- Witness for `thanos_move_manhattan` at the initial agent and the
destination `(0, 1)`. -/
theorem thanos_move_manhattan_witness :
    ((mkThanos 1).move 0 1 = .ok { mkThanos 1 with x := 0, y := 1 } ↔
      |(0 : Int) - (mkThanos 1).x| + |(1 : Int) - (mkThanos 1).y| ≤ 1) ∧
    ((mkThanos 1).move 0 1 = .error .wrongMove ↔
      1 < |(0 : Int) - (mkThanos 1).x| + |(1 : Int) - (mkThanos 1).y|) :=
  thanos_move_manhattan (mkThanos 1) 0 1 (by decide) (by decide) (by decide) (by decide)

/-- Claim C5, counterexample.  The claim says revealing the same tag twice
leaves the tag set the same size as revealing it once; `Node.add_info`
appends unconditionally, so the sizes differ. -/
theorem add_info_not_idempotent_counterexample :
    ¬((((mkNode 0 0).add_info NodeType.STONE).add_info NodeType.STONE).type.length
      = ((mkNode 0 0).add_info NodeType.STONE).type.length) := by
  decide

/-- Claim C5, amended.  Applying `Node.add_info` twice with the same tag
leaves the cell's tag list exactly one element longer than applying it once
(revealing is not idempotent in size), though the set of tags present is
unchanged. -/
theorem add_info_repeat_length (nd : Node) (t : NodeType) :
    ((nd.add_info t).add_info t).type.length = (nd.add_info t).type.length + 1 ∧
    (∀ u : NodeType, u ∈ ((nd.add_info t).add_info t).type ↔ u ∈ (nd.add_info t).type) := by
  constructor
  · simp [Node.add_info]
  · intro u
    simp only [Node.add_info, List.mem_append, List.mem_singleton]
    tauto

/-- Claim C2, counterexample.  The claim says a move onto a
perception-tagged cell is accepted when the agent holds the shield.  With the
shield held, the in-grid axis step `(0,1)` onto a perception-only cell is
still rejected by `Map.is_safe_move`. -/
theorem is_safe_move_shield_counterexample :
    shieldedPerceptionMap.thanos.hasShield = true ∧
    (shieldedPerceptionMap.get_node 0 1).toOption.map Node.is_perception = some true ∧
    (shieldedPerceptionMap.get_node 0 1).toOption.map Node.is_character = some false ∧
    (shieldedPerceptionMap.thanos.x, shieldedPerceptionMap.thanos.y) = ((0 : Int), (0 : Int)) ∧
    shieldedPerceptionMap.is_safe_move 0 1 = false := by
  decide

/-- Claim C2, amended.  `Map.is_safe_move` rejects a move landing on a cell
tagged as a blocking character or tagged with the perception tag
unconditionally: the agent's shield is never consulted, so the filter's
verdict is identical for every value of `has_shield`. -/
theorem is_safe_move_ignores_shield :
    (∀ (m : Map) (dx dy : Int) (nd : Node),
      m.get_node (m.thanos.x + dx) (m.thanos.y + dy) = .ok nd →
      (nd.is_character || nd.is_perception) = true →
      m.is_safe_move dx dy = false) ∧
    (∀ (m : Map) (b : Bool) (dx dy : Int),
      (setShield m b).is_safe_move dx dy = m.is_safe_move dx dy) := by
  constructor
  · intro m dx dy nd hget hcp
    simp only [Map.is_safe_move]
    split
    · rfl
    · split
      · rfl
      · split
        · rfl
        · rw [hget]
          simp [hcp]
  · intro m b dx dy
    rfl

/-- Witness for `is_safe_move_ignores_shield`: the filter rejects the
perception cell of `shieldedPerceptionMap` even though the shield is held. -/
theorem is_safe_move_ignores_shield_witness :
    shieldedPerceptionMap.is_safe_move 0 1 = false :=
  is_safe_move_ignores_shield.1 shieldedPerceptionMap 0 1 shieldedPerceptionNode
    (by decide) (by decide)

/-- Processing one observation record sets the shield flag exactly when the
record's tag is `SHIELD`; every other record leaves the flag unchanged. -/
theorem applyObs_shield (m m1 : Map) (ob : Obs) (h : applyObs m ob = .ok m1) :
    m1.thanos.hasShield = (m.thanos.hasShield || (ob.2.2 == NodeType.SHIELD)) := by
  obtain ⟨ox, oy, t⟩ := ob
  unfold applyObs at h
  by_cases ht : t = NodeType.EMPTY
  · rw [if_pos ht] at h
    cases h
    subst ht
    simp
  · rw [if_neg ht] at h
    by_cases hs : t = NodeType.SHIELD
    · rw [if_pos hs] at h
      cases h
      subst hs
      simp [Thanos.give_shield]
    · rw [if_neg hs] at h
      cases hg : Map.get_node m ox oy with
      | error e => rw [hg] at h; cases h
      | ok nd =>
        rw [hg] at h
        cases h
        simp only [Map.addInfoAt, setNodeAt]
        simp [beq_eq_false_iff_ne.mpr hs]

/-- The shield flag after folding a whole response's observation records:
it is set exactly when it was already set or some record carries `SHIELD`. -/
theorem applyObs_fold_shield :
    ∀ (obs : List Obs) (m m' : Map), obs.foldlM applyObs m = .ok m' →
      m'.thanos.hasShield =
        (m.thanos.hasShield || obs.any fun ob => ob.2.2 == NodeType.SHIELD) := by
  intro obs
  induction obs with
  | nil =>
    intro m m' h
    cases h
    simp
  | cons ob rest ih =>
    intro m m' h
    rw [List.foldlM_cons] at h
    cases happ : applyObs m ob with
    | error e => rw [happ] at h; simp [Bind.bind, Except.bind] at h
    | ok m1 =>
      rw [happ] at h
      simp only [Bind.bind, Except.bind] at h
      rw [ih m1 m' h, applyObs_shield m m1 ob happ]
      simp [Bool.or_assoc]

/-- Claim C3, counterexample.  The claim says the shield flag flips only when
the agent physically occupies the shield cell.  A single `make_turn` onto
`(0,1)` whose response reveals `SHIELD` at `(2,2)` sets the flag while the
agent stands at `(0,1) ≠ (2,2)`. -/
theorem give_shield_without_occupying_counterexample :
    (makeTurnCore (mkMap 1 (8, 8)) 0 1 [(2, 2, NodeType.SHIELD)]).toOption.map
        (fun m => (m.thanos.x, m.thanos.y, m.thanos.hasShield)) =
      some (0, 1, true) ∧
    ((2 : Int), (2 : Int)) ≠ ((0 : Int), (1 : Int)) := by
  decide

/-- Claim C3, amended.  The shield flag starts `false`, and after any
successful `make_turn` it is set exactly when it was already set or some
observation record of the response carries the `SHIELD` tag — irrespective of
which cell that record names or where the agent stands.  In particular it is
never reset once set. -/
theorem make_turn_shield :
    (∀ (p : Int) (s : Nat × Nat), (mkMap p s).thanos.hasShield = false) ∧
    (∀ (m : Map) (mx my : Int) (obs : List Obs) (m' : Map),
      makeTurnCore m mx my obs = .ok m' →
      m'.thanos.hasShield =
        (m.thanos.hasShield || obs.any fun ob => ob.2.2 == NodeType.SHIELD)) := by
  constructor
  · intro p s
    rfl
  · intro m mx my obs m' h
    unfold makeTurnCore at h
    cases hg : m.get_node mx my with
    | error e => rw [hg] at h; cases h
    | ok nd0 =>
      rw [hg] at h
      cases hm : m.thanos.move mx my with
      | error e => rw [hm] at h; cases h
      | ok th =>
        rw [hm] at h
        have hth : th.hasShield = m.thanos.hasShield := by
          unfold Thanos.move at hm
          split at hm
          · cases hm
          · cases hm
            rfl
        rw [applyObs_fold_shield obs _ m' h]
        simp [Map.visitAt, setNodeAt, hth]

/-- Witness for `make_turn_shield` at the concrete turn that reveals `SHIELD`
at `(2,2)` while moving onto `(0,1)`. -/
theorem make_turn_shield_witness :
    shieldTurnMap.thanos.hasShield =
      ((mkMap 1 (8, 8)).thanos.hasShield ||
        [(((2 : Int), (2 : Int), NodeType.SHIELD) : Obs)].any
          fun ob => ob.2.2 == NodeType.SHIELD) :=
  make_turn_shield.2 (mkMap 1 (8, 8)) 0 1 [(2, 2, NodeType.SHIELD)] shieldTurnMap (by decide)

/-- Cell lookup in a fresh row of the grid. -/
theorem rowNodes_getElem (x j : Nat) :
    (rowNodes x)[j]? = if j < MAP_LENGTH + 1 then some (mkNode x j) else none := by
  unfold rowNodes
  by_cases hj : j < MAP_LENGTH + 1
  · rw [if_pos hj, List.getElem?_map, List.getElem?_range hj]
    rfl
  · rw [if_neg hj, List.getElem?_map, List.getElem?_eq_none]
    · rfl
    · simpa using not_lt.mp hj

/-- Row lookup in the fresh grid. -/
theorem baseGrid_getElem (i : Nat) :
    baseGrid[i]? = if i < MAP_LENGTH + 1 then some (rowNodes i) else none := by
  unfold baseGrid
  by_cases hi : i < MAP_LENGTH + 1
  · rw [if_pos hi, List.getElem?_map, List.getElem?_range hi]
    rfl
  · rw [if_neg hi, List.getElem?_map, List.getElem?_eq_none]
    · rfl
    · simpa using not_lt.mp hi

/-- The cell stored at `(i, j)` of a freshly built map: inside the grid it is
the fresh node of those coordinates, with the stone tag added on the stone
cell; outside it is absent. -/
theorem mkMap_cell (p : Int) (s : Nat × Nat) (i j : Nat) :
    ((mkMap p s).map[i]?.getD [])[j]? =
      if i < MAP_LENGTH + 1 ∧ j < MAP_LENGTH + 1 then
        some (if s.1 = i ∧ s.2 = j then (mkNode i j).add_info NodeType.STONE else mkNode i j)
      else none := by
  have hbl : baseGrid.length = MAP_LENGTH + 1 := by simp [baseGrid]
  have hrl : ∀ x : Nat, (rowNodes x).length = MAP_LENGTH + 1 := by
    intro x; simp [rowNodes]
  simp only [mkMap, Map.addInfoAt, setNodeAt, Int.toNat_natCast]
  rw [List.getElem?_set]
  by_cases hs1 : s.1 = i
  · rw [if_pos hs1]
    by_cases hi : i < MAP_LENGTH + 1
    · rw [hbl, if_pos (hs1 ▸ hi)]
      have hrow : baseGrid.getD s.1 [] = rowNodes i := by
        rw [List.getD_eq_getElem?_getD, baseGrid_getElem, hs1, if_pos hi]
        rfl
      simp only [hrow, Option.getD_some]
      rw [List.getElem?_set]
      by_cases hs2 : s.2 = j
      · rw [if_pos hs2]
        by_cases hj : j < MAP_LENGTH + 1
        · rw [hrl, if_pos (hs2 ▸ hj), if_pos ⟨hi, hj⟩, if_pos ⟨hs1, hs2⟩]
          have : (rowNodes i).getD s.2 (mkNode 0 0) = mkNode i j := by
            rw [List.getD_eq_getElem?_getD, rowNodes_getElem, hs2, if_pos hj]
            rfl
          rw [this]
        · rw [hrl, if_neg (hs2 ▸ hj), if_neg (fun hc => hj hc.2)]
      · rw [if_neg hs2, rowNodes_getElem]
        by_cases hj : j < MAP_LENGTH + 1
        · rw [if_pos hj, if_pos ⟨hi, hj⟩, if_neg (fun hc => hs2 hc.2)]
        · rw [if_neg hj, if_neg (fun hc => hj hc.2)]
    · rw [hbl, if_neg (hs1 ▸ hi)]
      simp only [Option.getD_none, List.getElem?_nil]
      rw [if_neg (fun hc => hi hc.1)]
  · rw [if_neg hs1, baseGrid_getElem]
    by_cases hi : i < MAP_LENGTH + 1
    · rw [if_pos hi]
      simp only [Option.getD_some]
      rw [rowNodes_getElem]
      by_cases hj : j < MAP_LENGTH + 1
      · rw [if_pos hj, if_pos ⟨hi, hj⟩, if_neg (fun hc => hs1 hc.1)]
      · rw [if_neg hj, if_neg (fun hc => hj hc.2)]
    · rw [if_neg hi]
      simp only [Option.getD_none, List.getElem?_nil]
      rw [if_neg (fun hc => hi hc.1)]

/-- Claim C6, confirmed.  On a freshly built map, `Map.get_node` returns the
stored cell — whose coordinates are the requested ones — exactly when both
coordinates lie in `[0, MAP_LENGTH]`, and fails with an `IndexError` (Python's
out-of-bounds error, raised either by the explicit check or by the list
indexing) for every other pair; in particular for `(MAP_LENGTH+1, 0)`,
`(0, MAP_LENGTH+1)` and `(-1, 0)`. -/
theorem get_node_in_bounds (p : Int) (s : Nat × Nat) (x y : Int) :
    ((mkMap p s).get_node x y).toOption.map (fun nd => (nd.x, nd.y)) =
      if 0 ≤ x ∧ x ≤ (MAP_LENGTH : Int) ∧ 0 ≤ y ∧ y ≤ (MAP_LENGTH : Int) then some (x, y)
      else none := by
  unfold Map.get_node
  by_cases hexp : ¬(0 ≤ x ∧ x ≤ (MAP_LENGTH : Int) + 1) ∨ ¬(0 ≤ y ∧ y ≤ (MAP_LENGTH : Int) + 1)
  · rw [if_pos hexp]
    have hout : ¬(0 ≤ x ∧ x ≤ (MAP_LENGTH : Int) ∧ 0 ≤ y ∧ y ≤ (MAP_LENGTH : Int)) := by
      simp only [MAP_LENGTH] at hexp ⊢
      omega
    rw [if_neg hout]
    rfl
  · rw [if_neg hexp]
    push_neg at hexp
    obtain ⟨⟨hx0, hx9⟩, hy0, hy9⟩ := hexp
    have hcell := mkMap_cell p s x.toNat y.toNat
    simp only [List.get?_eq_getElem?]
    cases hrow : (mkMap p s).map[x.toNat]? with
    | none =>
      rw [hrow] at hcell
      simp only [Option.getD_none, List.getElem?_nil] at hcell
      have hnab : ¬(x.toNat < MAP_LENGTH + 1 ∧ y.toNat < MAP_LENGTH + 1) := by
        intro hc
        rw [if_pos hc] at hcell
        cases hcell
      have : ¬(0 ≤ x ∧ x ≤ (MAP_LENGTH : Int) ∧ 0 ≤ y ∧ y ≤ (MAP_LENGTH : Int)) := by
        simp only [MAP_LENGTH] at *
        omega
      rw [if_neg this]
      rfl
    | some row =>
      rw [hrow] at hcell
      simp only [Option.getD_some] at hcell
      dsimp only
      cases hcol : row[y.toNat]? with
      | none =>
        rw [hcol] at hcell
        have hnab : ¬(x.toNat < MAP_LENGTH + 1 ∧ y.toNat < MAP_LENGTH + 1) := by
          intro hc
          rw [if_pos hc] at hcell
          cases hcell
        have : ¬(0 ≤ x ∧ x ≤ (MAP_LENGTH : Int) ∧ 0 ≤ y ∧ y ≤ (MAP_LENGTH : Int)) := by
          simp only [MAP_LENGTH] at *
          omega
        rw [if_neg this]
        rfl
      | some nd =>
        rw [hcol] at hcell
        by_cases hab : x.toNat < MAP_LENGTH + 1 ∧ y.toNat < MAP_LENGTH + 1
        · rw [if_pos hab] at hcell
          have hxy : nd.x = (x.toNat : Int) ∧ nd.y = (y.toNat : Int) := by
            split at hcell <;> (cases hcell; simp [mkNode, Node.add_info])
          have hin : 0 ≤ x ∧ x ≤ (MAP_LENGTH : Int) ∧ 0 ≤ y ∧ y ≤ (MAP_LENGTH : Int) := by
            simp only [MAP_LENGTH] at *
            omega
          rw [if_pos hin]
          simp [Except.toOption, hxy.1, hxy.2, Int.toNat_of_nonneg hx0,
            Int.toNat_of_nonneg hy0]
        · rw [if_neg hab] at hcell
          cases hcell

/-- The move filter rejects the south-west diagonal for every state. -/
theorem is_safe_move_diag_sw (m : Map) : m.is_safe_move (-1) (-1) = false := rfl

/-- The move filter rejects the north-west diagonal for every state. -/
theorem is_safe_move_diag_nw (m : Map) : m.is_safe_move (-1) 1 = false := rfl

/-- The move filter rejects the south-east diagonal for every state. -/
theorem is_safe_move_diag_se (m : Map) : m.is_safe_move 1 (-1) = false := rfl

/-- The move filter rejects the north-east diagonal for every state. -/
theorem is_safe_move_diag_ne (m : Map) : m.is_safe_move 1 1 = false := rfl

/-- The move filter rejects the zero offset for every state. -/
theorem is_safe_move_zero (m : Map) : m.is_safe_move 0 0 = false := rfl

/-- Soundness of one offset accepted by the move filter: it is an axis unit
step landing inside the grid on a cell free of character and perception
tags. -/
theorem possible_moves_sound (m : Map) (dx dy : Int)
    (hmem : (dx, dy) ∈ m.get_possible_moves) :
    dx.natAbs + dy.natAbs = 1 ∧
    (0 ≤ m.thanos.x + dx ∧ m.thanos.x + dx ≤ (MAP_LENGTH : Int)) ∧
    (0 ≤ m.thanos.y + dy ∧ m.thanos.y + dy ≤ (MAP_LENGTH : Int)) ∧
    ∃ nd, m.get_node (m.thanos.x + dx) (m.thanos.y + dy) = .ok nd ∧
      nd.is_character = false ∧ nd.is_perception = false := by
  have hsafe : m.is_safe_move dx dy = true := (List.mem_filter.mp hmem).2
  simp only [Map.is_safe_move] at hsafe
  split at hsafe
  · cases hsafe
  · split at hsafe
    · cases hsafe
    · split at hsafe
      · cases hsafe
      · rename_i h1 h2 h3
        push_neg at h3
        refine ⟨?_, h3.1, h3.2, ?_⟩
        · rw [Int.abs_eq_natAbs, Int.abs_eq_natAbs] at h2
          omega
        · cases hg : m.get_node (m.thanos.x + dx) (m.thanos.y + dy) with
          | error e => rw [hg] at hsafe; cases hsafe
          | ok nn =>
            rw [hg] at hsafe
            simp only [Bool.not_or, Bool.and_eq_true, Bool.not_eq_true'] at hsafe
            exact ⟨nn, rfl, hsafe.1, hsafe.2⟩

/-- Claim C9, confirmed.  Every offset returned by `Map.get_possible_moves`
is an axis-aligned unit step (never zero, never diagonal) that lands inside
the grid on a cell tagged neither as a character nor as perception, and the
list holds at most 4 offsets. -/
theorem get_possible_moves_axis :
    (∀ (m : Map) (dx dy : Int), (dx, dy) ∈ m.get_possible_moves →
      dx.natAbs + dy.natAbs = 1 ∧
      (0 ≤ m.thanos.x + dx ∧ m.thanos.x + dx ≤ (MAP_LENGTH : Int)) ∧
      (0 ≤ m.thanos.y + dy ∧ m.thanos.y + dy ≤ (MAP_LENGTH : Int)) ∧
      ∃ nd, m.get_node (m.thanos.x + dx) (m.thanos.y + dy) = .ok nd ∧
        nd.is_character = false ∧ nd.is_perception = false) ∧
    (∀ m : Map, m.get_possible_moves.length ≤ 4) := by
  constructor
  · exact fun m dx dy hmem => possible_moves_sound m dx dy hmem
  · intro m
    simp only [Map.get_possible_moves, moveDeltas, List.filter_cons, List.filter_nil,
      is_safe_move_diag_sw, is_safe_move_diag_nw, is_safe_move_diag_se,
      is_safe_move_diag_ne, is_safe_move_zero]
    split_ifs <;> simp_all

/-- Witness for `get_possible_moves_axis`: the offset `(0, 1)` of the fresh
map is a safe axis step, and the fresh map offers at most 4 moves. -/
theorem get_possible_moves_axis_witness :
    ((0 : Int).natAbs + (1 : Int).natAbs = 1 ∧
      (0 ≤ (mkMap 1 (8, 8)).thanos.x + 0 ∧
        (mkMap 1 (8, 8)).thanos.x + 0 ≤ (MAP_LENGTH : Int)) ∧
      (0 ≤ (mkMap 1 (8, 8)).thanos.y + 1 ∧
        (mkMap 1 (8, 8)).thanos.y + 1 ≤ (MAP_LENGTH : Int)) ∧
      ∃ nd, (mkMap 1 (8, 8)).get_node ((mkMap 1 (8, 8)).thanos.x + 0)
          ((mkMap 1 (8, 8)).thanos.y + 1) = .ok nd ∧
        nd.is_character = false ∧ nd.is_perception = false) ∧
    (mkMap 1 (8, 8)).get_possible_moves.length ≤ 4 :=
  ⟨get_possible_moves_axis.1 (mkMap 1 (8, 8)) 0 1 (by decide),
    get_possible_moves_axis.2 (mkMap 1 (8, 8))⟩

/-- The `is_shield` test is membership of `SHIELD` in the tag list. -/
theorem is_shield_eq_mem (nd : Node) :
    nd.is_shield = decide (NodeType.SHIELD ∈ nd.type) := by
  simp [Node.is_shield, List.contains, List.elem_eq_mem]

/-- Appending a tag other than `SHIELD` does not change `is_shield`. -/
theorem add_info_is_shield (nd : Node) (t : NodeType) (ht : t ≠ NodeType.SHIELD) :
    (nd.add_info t).is_shield = nd.is_shield := by
  have hne : NodeType.SHIELD ≠ t := Ne.symm ht
  simp [is_shield_eq_mem, Node.add_info, hne]

/-- Updating one cell with an `is_shield`-preserving function preserves the
grid-wide shield-freedom invariant. -/
theorem noShield_setNodeAt (m : Map) (a b : Int) (f : Node → Node)
    (hf : ∀ nd, (f nd).is_shield = nd.is_shield) (h : noShield m) :
    noShield (setNodeAt m a b f) := by
  intro row hrow nd hnd
  rcases List.mem_or_eq_of_mem_set hrow with hrow' | hroweq
  · exact h row hrow' nd hnd
  · subst hroweq
    have hbaserow : ∀ x ∈ m.map.getD a.toNat [], x.is_shield = false := by
      intro x hx
      by_cases hlen : a.toNat < m.map.length
      · refine h _ ?_ x hx
        rw [List.getD_eq_getElem _ _ hlen]
        exact List.getElem_mem hlen
      · rw [List.getD_eq_getElem?_getD, List.getElem?_eq_none (by omega)] at hx
        cases hx
    rcases List.mem_or_eq_of_mem_set hnd with hnd' | hndeq
    · exact hbaserow nd hnd'
    · subst hndeq
      rw [hf]
      by_cases hlen2 : b.toNat < (m.map.getD a.toNat []).length
      · refine hbaserow _ ?_
        rw [List.getD_eq_getElem _ _ hlen2]
        exact List.getElem_mem hlen2
      · rw [List.getD_eq_getElem?_getD, List.getElem?_eq_none (by omega)]
        rfl

/-- Folding one observation record preserves shield-freedom: `SHIELD` records
touch only the agent, and every other tag written is not `SHIELD`. -/
theorem noShield_applyObs (m m1 : Map) (ob : Obs) (happ : applyObs m ob = .ok m1)
    (h : noShield m) : noShield m1 := by
  unfold applyObs at happ
  by_cases ht : ob.2.2 = NodeType.EMPTY
  · rw [if_pos ht] at happ
    cases happ
    exact h
  · rw [if_neg ht] at happ
    by_cases hs : ob.2.2 = NodeType.SHIELD
    · rw [if_pos hs] at happ
      cases happ
      exact h
    · rw [if_neg hs] at happ
      cases hg : Map.get_node m ob.1 ob.2.1 with
      | error e => rw [hg] at happ; cases happ
      | ok nd =>
        rw [hg] at happ
        cases happ
        exact noShield_setNodeAt m ob.1 ob.2.1 _
          (fun nd' => add_info_is_shield nd' ob.2.2 hs) h

/-- Folding a whole response preserves shield-freedom. -/
theorem noShield_fold :
    ∀ (obs : List Obs) (m m' : Map), obs.foldlM applyObs m = .ok m' →
      noShield m → noShield m' := by
  intro obs
  induction obs with
  | nil =>
    intro m m' hfold hm
    cases hfold
    exact hm
  | cons ob rest ih =>
    intro m m' hfold hm
    rw [List.foldlM_cons] at hfold
    cases happ : applyObs m ob with
    | error e => rw [happ] at hfold; simp [Bind.bind, Except.bind] at hfold
    | ok m1 =>
      rw [happ] at hfold
      simp only [Bind.bind, Except.bind] at hfold
      exact ih m1 m' hfold (noShield_applyObs m m1 ob happ hm)

/-- One `make_turn` preserves shield-freedom. -/
theorem noShield_makeTurn (m m' : Map) (mx my : Int) (obs : List Obs)
    (h : makeTurnCore m mx my obs = .ok m') (hm : noShield m) : noShield m' := by
  unfold makeTurnCore at h
  cases hg : m.get_node mx my with
  | error e => rw [hg] at h; cases h
  | ok nd0 =>
    rw [hg] at h
    cases hmv : m.thanos.move mx my with
    | error e => rw [hmv] at h; cases h
    | ok th =>
      rw [hmv] at h
      refine noShield_fold obs _ m' h ?_
      exact noShield_setNodeAt { m with thanos := th } mx my _ (fun nd' => rfl) hm

/-- A freshly built map is shield-free: the fresh nodes carry no tags and the
stone cell carries only `STONE`. -/
theorem noShield_mkMap (p : Int) (s : Nat × Nat) : noShield (mkMap p s) := by
  have hbase : noShield
      { map := baseGrid, thanos := mkThanos p, steps := 0,
        stoneCoords := ((s.1 : Int), (s.2 : Int)) } := by
    intro row hrow nd hnd
    simp only [baseGrid, List.mem_map] at hrow
    obtain ⟨x, _, hx⟩ := hrow
    subst hx
    simp only [rowNodes, List.mem_map] at hnd
    obtain ⟨y, _, hy⟩ := hnd
    subst hy
    rfl
  exact noShield_setNodeAt _ _ _ _
    (fun nd' => add_info_is_shield nd' NodeType.STONE (by simp)) hbase

/-- A sequence of `make_turn` exchanges preserves shield-freedom. -/
theorem noShield_runTurns :
    ∀ (cmds : List ((Int × Int) × List Obs)) (m0 m' : Map),
      runTurns m0 cmds = .ok m' → noShield m0 → noShield m' := by
  intro cmds
  induction cmds with
  | nil =>
    intro m0 m' hrun hm
    cases hrun
    exact hm
  | cons c rest ih =>
    intro m0 m' hrun hm
    rw [runTurns, List.foldlM_cons] at hrun
    cases hturn : makeTurnCore m0 c.1.1 c.1.2 c.2 with
    | error e => rw [hturn] at hrun; simp [Bind.bind, Except.bind] at hrun
    | ok m1 =>
      rw [hturn] at hrun
      simp only [Bind.bind, Except.bind] at hrun
      exact ih m1 m' hrun (noShield_makeTurn m0 m1 c.1.1 c.1.2 c.2 hturn hm)

/-- Claim C10, confirmed.  After any successful sequence of `make_turn`
exchanges from a freshly built map — whatever observation records the arbiter
sends, `SHIELD` records included — no cell of the grid ever carries the
`SHIELD` tag: `Node.is_shield` is `false` on every cell. -/
theorem no_cell_ever_shield (p : Int) (s : Nat × Nat)
    (cmds : List ((Int × Int) × List Obs)) (m' : Map)
    (h : runTurns (mkMap p s) cmds = .ok m') : noShield m' :=
  noShield_runTurns cmds (mkMap p s) m' h (noShield_mkMap p s)

/-- Witness for `no_cell_ever_shield`: a concrete run whose response reveals
`SHIELD` at `(2,2)` and `PERCEPTION` at `(1,1)` leaves every cell
shield-free. -/
theorem no_cell_ever_shield_witness : noShield turnsNoShieldMap :=
  no_cell_ever_shield 1 (8, 8)
    [((0, 1), [(1, 1, NodeType.PERCEPTION), (2, 2, NodeType.SHIELD)])]
    turnsNoShieldMap (by rfl)

/-- The reconstructed return path always contains at least the popped cell. -/
theorem reconstructPath_ne_nil (m : Map) (c : Int × Int) :
    (reconstructPath m c).length ≥ 1 := by
  simp [reconstructPath]

/-- When one loop iteration of `astar_search` returns, the popped cell is the
target and the returned value is the reconstructed path's length minus one,
measured in the state at the moment of the return. -/
theorem astarBody_inl (endC : Int × Int) (oracle : Oracle) (a : AStar)
    (p : Int × Int) (r : Int) (af : AStar)
    (h : astarBody endC oracle a = .ok (p, .inl (r, af))) :
    p = endC ∧ r = ((reconstructPath af.m endC).length : Int) - 1 := by
  unfold astarBody at h
  cases hpop : heappop (fLt a.m) a.openL with
  | none => rw [hpop] at h; cases h
  | some pr =>
    obtain ⟨cur, open1⟩ := pr
    rw [hpop] at h
    dsimp only at h
    cases hwalk : astarWalk oracle a.current cur
        { a with openL := open1, current := cur } with
    | error e => rw [hwalk] at h; cases h
    | ok a2 =>
      rw [hwalk] at h
      dsimp only at h
      by_cases hcur : cur = endC
      · rw [if_pos hcur] at h
        cases h
        exact ⟨hcur, by rw [hcur]⟩
      · rw [if_neg hcur] at h
        cases h

/-- When one loop iteration of `astar_search` continues, the popped cell is
not the target. -/
theorem astarBody_inr (endC : Int × Int) (oracle : Oracle) (a : AStar)
    (p : Int × Int) (a' : AStar)
    (h : astarBody endC oracle a = .ok (p, .inr a')) : p ≠ endC := by
  unfold astarBody at h
  cases hpop : heappop (fLt a.m) a.openL with
  | none => rw [hpop] at h; cases h
  | some pr =>
    obtain ⟨cur, open1⟩ := pr
    rw [hpop] at h
    dsimp only at h
    cases hwalk : astarWalk oracle a.current cur
        { a with openL := open1, current := cur } with
    | error e => rw [hwalk] at h; cases h
    | ok a2 =>
      rw [hwalk] at h
      dsimp only at h
      by_cases hcur : cur = endC
      · rw [if_pos hcur] at h
        cases h
      · rw [if_neg hcur] at h
        cases h
        exact hcur

/-- Claim C7, confirmed.  Whenever the `astar_search` loop returns (no
exception, enough fuel), it returns `-1` exactly when the open list became
empty with the target never popped, and it returns a non-`-1` value exactly
when the last popped cell is the target, the value then being the number of
cells on the reconstructed parent-chain path minus one. -/
theorem astar_loop_spec (endC : Int × Int) (oracle : Oracle) :
    ∀ (fuel : Nat) (a : AStar) (r : Int) (tr : List (Int × Int)) (af : AStar),
      astarLoopT endC oracle fuel a = .ok (some (r, tr, af)) →
      ((r = -1) ↔ (af.openL = [] ∧ endC ∉ tr)) ∧
      (r ≠ -1 → tr.getLast? = some endC ∧
        r = ((reconstructPath af.m endC).length : Int) - 1) := by
  intro fuel
  induction fuel with
  | zero =>
    intro a r tr af h
    simp [astarLoopT] at h
  | succ n ih =>
    intro a r tr af h
    rw [astarLoopT] at h
    split at h
    · rename_i hopen
      simp only [Except.ok.injEq, Option.some.injEq, Prod.mk.injEq] at h
      obtain ⟨hr, htr, haf⟩ := h
      subst hr
      subst htr
      subst haf
      refine ⟨⟨fun _ => ⟨hopen, by simp⟩, fun _ => rfl⟩, fun hne => absurd rfl hne⟩
    · cases hb : astarBody endC oracle a with
      | error e => rw [hb] at h; cases h
      | ok pr =>
        rw [hb] at h
        obtain ⟨p, out⟩ := pr
        cases out with
        | inl ra =>
          obtain ⟨r0, af0⟩ := ra
          dsimp only at h
          simp only [Except.ok.injEq, Option.some.injEq, Prod.mk.injEq] at h
          obtain ⟨hr, htr, haf⟩ := h
          subst hr
          subst htr
          subst haf
          obtain ⟨hp, hval⟩ := astarBody_inl endC oracle a p r0 af0 hb
          have hlen := reconstructPath_ne_nil af0.m endC
          constructor
          · constructor
            · intro hm1
              exfalso
              omega
            · intro ⟨_, hmem⟩
              exact absurd (by simp [hp] : endC ∈ [p]) hmem
          · intro _
            exact ⟨by simp [hp], hval⟩
        | inr a' =>
          dsimp only at h
          cases hrec : astarLoopT endC oracle n a' with
          | error e => rw [hrec] at h; cases h
          | ok o =>
            rw [hrec] at h
            cases o with
            | none => cases h
            | some rta =>
              obtain ⟨r1, tr1, af1⟩ := rta
              dsimp only at h
              simp only [Except.ok.injEq, Option.some.injEq, Prod.mk.injEq] at h
              obtain ⟨hr, htr, haf⟩ := h
              subst hr
              subst htr
              subst haf
              have hne := astarBody_inr endC oracle a p a' hb
              obtain ⟨ihiff, ihsucc⟩ := ih a' r1 tr1 af1 hrec
              constructor
              · constructor
                · intro hm1
                  obtain ⟨ho, hm⟩ := ihiff.mp hm1
                  exact ⟨ho, by simp [List.mem_cons, Ne.symm hne, hm]⟩
                · intro ⟨ho, hm⟩
                  exact ihiff.mpr ⟨ho, fun hx => hm (List.mem_cons_of_mem _ hx)⟩
              · intro hner
                obtain ⟨hlast, hval⟩ := ihsucc hner
                have htrne : tr1 ≠ [] := by
                  intro he
                  rw [he] at hlast
                  cases hlast
                refine ⟨?_, hval⟩
                rw [List.getLast?_cons, hlast]
                rfl

/-- Witness for `astar_loop_spec`: the complete small run whose target is the
start cell. -/
theorem astar_loop_spec_witness :
    ((exMiniR = -1) ↔ (exMiniAf.openL = [] ∧ (0, 0) ∉ exMiniTr)) ∧
    (exMiniR ≠ -1 → exMiniTr.getLast? = some (0, 0) ∧
      exMiniR = ((reconstructPath exMiniAf.m (0, 0)).length : Int) - 1) :=
  astar_loop_spec (0, 0) emptyOracle 10 (astarInit (mkMap 1 (0, 0)))
    exMiniR exMiniTr exMiniAf rfl

/-- A DFS-internal `make_turn` never touches `__min_distance`. -/
theorem makeTurnD_minD (oracle : Oracle) (s s1 : DState) (c : Int × Int)
    (h : makeTurnD oracle s c = .ok s1) : s1.minD = s.minD := by
  unfold makeTurnD at h
  cases ht : makeTurnCore s.m c.1 c.2 (oracle s.turn) with
  | error e => rw [ht] at h; cases h
  | ok m' =>
    rw [ht] at h
    cases h
    rfl

/-- Folding `min` into an accumulator never exceeds the accumulator. -/
theorem foldl_min_le_init (l : List Nat) : ∀ x : Nat, l.foldl min x ≤ x := by
  induction l with
  | nil => intro x; exact le_refl x
  | cons a t ih => intro x; exact le_trans (ih (min x a)) (min_le_left x a)

/-- The fold of `min` is the accumulator or an element of the list. -/
theorem foldl_min_mem (l : List Nat) : ∀ x : Nat,
    l.foldl min x = x ∨ l.foldl min x ∈ l := by
  induction l with
  | nil => intro x; exact .inl rfl
  | cons a t ih =>
    intro x
    rcases ih (min x a) with h | h
    · rcases min_choice x a with hc | hc
      · exact .inl (by rw [List.foldl_cons, h, hc])
      · exact .inr (by rw [List.foldl_cons, h, hc]; exact List.mem_cons_self a t)
    · exact .inr (List.mem_cons_of_mem a h)

/-- The fold of `min` is a lower bound of the list. -/
theorem foldl_min_le_mem (l : List Nat) : ∀ (x : Nat) (d : Nat), d ∈ l →
    l.foldl min x ≤ d := by
  induction l with
  | nil => intro x d hd; cases hd
  | cons a t ih =>
    intro x d hd
    rcases List.mem_cons.mp hd with hda | hdt
    · subst hda
      exact le_trans (foldl_min_le_init t (min x d)) (min_le_right x d)
    · exact ih (min x a) d hdt

/-- The neighbor loop of `run_dfs`: given that each recursive descent turns
the running minimum into the fold of its recorded target distances and
records only values at most `B`, so does the whole loop. -/
theorem dfsChildren_spec (f : DState → (Int × Int) → Except PyErr (DState × List Nat))
    (dist B : Nat)
    (hf : ∀ (s : DState) (nb : Int × Int) (s' : DState) (recs : List Nat),
      f s nb = .ok (s', recs) →
      s'.minD = recs.foldl min s.minD ∧ ∀ d ∈ recs, d ≤ B) :
    ∀ (nbs : List (Int × Int)) (s s' : DState) (recs : List Nat),
      dfsChildren f dist s nbs = .ok (s', recs) →
      s'.minD = recs.foldl min s.minD ∧ ∀ d ∈ recs, d ≤ B := by
  intro nbs
  induction nbs with
  | nil =>
    intro s s' recs h
    cases h
    exact ⟨rfl, by simp⟩
  | cons nb rest ih =>
    intro s s' recs h
    rw [dfsChildren] at h
    split at h
    · cases hc : f (setG s nb dist) nb with
      | error e => rw [hc] at h; cases h
      | ok pr =>
        rw [hc] at h
        obtain ⟨s1, r1⟩ := pr
        dsimp only at h
        cases hrest : dfsChildren f dist s1 rest with
        | error e => rw [hrest] at h; cases h
        | ok pr2 =>
          rw [hrest] at h
          obtain ⟨s2, r2⟩ := pr2
          dsimp only at h
          rw [Except.ok.injEq, Prod.mk.injEq] at h
          obtain ⟨hs, hr⟩ := h
          subst hs
          subst hr
          obtain ⟨hm1, hb1⟩ := hf _ _ _ _ hc
          obtain ⟨hm2, hb2⟩ := ih s1 s2 r2 hrest
          constructor
          · rw [hm2, hm1, List.foldl_append]
            rfl
          · intro d hd
            rcases List.mem_append.mp hd with h1 | h2
            · exact hb1 d h1
            · exact hb2 d h2
    · exact ih s s' recs h

/-- The running `__min_distance` after a completed `run_dfs` descent is the
fold of `min` over the recorded target distances into the entry value, and
every recorded distance is bounded by the entry distance plus the fuel. -/
theorem runDfs_spec (endC : Int × Int) (oracle : Oracle) :
    ∀ (fuel : Nat) (s : DState) (cur : Int × Int) (dist : Nat)
      (visited : List (Int × Int)) (s' : DState) (recs : List Nat),
      runDfs endC oracle fuel s cur dist visited = .ok (s', recs) →
      s'.minD = recs.foldl min s.minD ∧ ∀ d ∈ recs, d ≤ dist + fuel := by
  intro fuel
  induction fuel with
  | zero =>
    intro s cur dist visited s' recs h
    cases h
  | succ n ih =>
    intro s cur dist visited s' recs h
    rw [runDfs] at h
    split at h
    · cases h
      refine ⟨rfl, fun d hd => ?_⟩
      simp only [List.mem_singleton] at hd
      omega
    · split at h
      · cases h
        exact ⟨rfl, by simp⟩
      · cases ht1 : makeTurnD oracle s cur with
        | error e => rw [ht1] at h; cases h
        | ok s1 =>
          rw [ht1] at h
          dsimp only at h
          cases hch : dfsChildren
              (fun s'' nb => runDfs endC oracle n s'' nb (dist + 1) (cur :: visited))
              dist s1 (neighborCells s1.m) with
          | error e => rw [hch] at h; cases h
          | ok pr =>
            rw [hch] at h
            obtain ⟨s2, recs2⟩ := pr
            dsimp only at h
            cases ht2 : makeTurnD oracle s2 (s.m.thanos.x, s.m.thanos.y) with
            | error e => rw [ht2] at h; cases h
            | ok s3 =>
              rw [ht2] at h
              rw [Except.ok.injEq, Prod.mk.injEq] at h
              obtain ⟨hs, hr⟩ := h
              subst hs
              subst hr
              obtain ⟨hm, hbnd⟩ := dfsChildren_spec _ dist (dist + 1 + n)
                (fun sa nb sb rb hb => ih sa nb (dist + 1) (cur :: visited) sb rb hb)
                (neighborCells s1.m) s1 s2 recs2 hch
              constructor
              · rw [makeTurnD_minD oracle s2 s3 _ ht2, hm,
                  makeTurnD_minD oracle s s1 _ ht1]
              · intro d hd
                have := hbnd d hd
                omega

/-- Claim C8, confirmed.  Whenever `backtracking_search` returns (no
exception, enough recursion fuel, and the fuel — which bounds every recorded
distance — below the huge initial `__min_distance`), it returns `-1` exactly
when no depth-first descent reached the target, and otherwise returns the
minimum `current_distance` recorded over all completed descents that reached
the target. -/
theorem backtracking_min (endC : Int × Int) (oracle : Oracle) (fuel : Nat) (m : Map)
    (r : Int) (recs : List Nat)
    (hrun : backtrackingSearch endC oracle fuel m = .ok (r, recs))
    (hfuel : fuel < MIN_DISTANCE_INIT) :
    (r = -1 ↔ recs = []) ∧
    (recs ≠ [] → ∃ k, k ∈ recs ∧ (∀ d ∈ recs, k ≤ d) ∧ r = (k : Int)) := by
  unfold backtrackingSearch at hrun
  cases hd : runDfs endC oracle fuel
      { m := m, minD := MIN_DISTANCE_INIT, turn := 0 } (0, 0) 0 [] with
  | error e => rw [hd] at hrun; cases hrun
  | ok pr =>
    rw [hd] at hrun
    obtain ⟨s', recs'⟩ := pr
    dsimp only at hrun
    cases hrun
    obtain ⟨hm0, hb⟩ := runDfs_spec endC oracle fuel _ (0, 0) 0 [] s' recs hd
    have hm : s'.minD = recs.foldl min MIN_DISTANCE_INIT := hm0
    by_cases hrecs : recs = []
    · subst hrecs
      simp only [List.foldl_nil] at hm
      rw [if_pos hm]
      exact ⟨⟨fun _ => rfl, fun _ => rfl⟩, fun hne => absurd rfl hne⟩
    · have hklt : recs.foldl min MIN_DISTANCE_INIT < MIN_DISTANCE_INIT := by
        obtain ⟨d0, hd0⟩ := List.exists_mem_of_ne_nil recs hrecs
        have h1 := foldl_min_le_mem recs MIN_DISTANCE_INIT d0 hd0
        have h2 := hb d0 hd0
        omega
      have hmem : recs.foldl min MIN_DISTANCE_INIT ∈ recs := by
        rcases foldl_min_mem recs MIN_DISTANCE_INIT with h | h
        · omega
        · exact h
      rw [hm, if_neg (by omega)]
      constructor
      · constructor
        · intro hc
          exfalso
          omega
        · intro hc
          exact absurd hc hrecs
      · intro _
        exact ⟨recs.foldl min MIN_DISTANCE_INIT, hmem,
          fun d hd => foldl_min_le_mem recs MIN_DISTANCE_INIT d hd, rfl⟩

/-- Witness for `backtracking_min`: the complete small backtracking run whose
target is the start cell. -/
theorem backtracking_min_witness :
    (exDfsR = -1 ↔ exDfsRecs = []) ∧
    (exDfsRecs ≠ [] → ∃ k, k ∈ exDfsRecs ∧ (∀ d ∈ exDfsRecs, k ≤ d) ∧
      exDfsR = (k : Int)) :=
  backtracking_min (0, 0) emptyOracle 5 (mkMap 1 (0, 0)) exDfsR exDfsRecs rfl (by decide)

end PathFind
